import Mathlib

/-!
Shallow embedding of the run package: a supervisor that wraps a runnable
with recurrence, restart-with-backoff, timeout, run-limit and panic
containment policies (files instance.go, runnable.go, options.go, panic.go).

Durations (Go time.Duration, int64) are modelled as Int; the uint64
counters as Nat (no claim depends on 64-bit wrap-around).  A Go nil
function or nil pointer is modelled as Option.none.
-/

namespace RunPkg

/-- Fixed sentinel message from panic.go: the value of the NilRunnable
string constant. -/
def NilRunnable : String := "attempted to run a nil Runnable"

/-- An error value as it travels on the outcome channel: either an
ordinary error (identified by its message) or a RunnablePanic wrapping a
recovered panic value (modelled as the panic value's string form). -/
inductive GoError where
  | mk (msg : String)
  | runnablePanic (v : String)
deriving DecidableEq

/-- Error method of panic.go: RunnablePanic formats as
"runnable panic: " followed by its value; an ordinary error is its
message. -/
def GoError.errorText : GoError → String
  | .mk m => m
  | .runnablePanic v => "runnable panic: " ++ v

/-- Panic value raised by the Go runtime when a nil function (the unset
backoff) is called. -/
def nilFuncPanicValue : String :=
  "runtime error: invalid memory address or nil pointer dereference"

/-- Observable behaviour of one invocation of a runnable: returns nil,
returns a non-nil error, or panics with a value. -/
inductive ExecResult where
  | ok
  | fail (e : GoError)
  | panicked (v : String)
deriving DecidableEq

/-- BackoffFn of options.go: maps a (1-based) consecutive-failure count
to a delay. -/
def BackoffFn : Type := Nat → Int

/-- ConstantBackoff of options.go: ignores the count, returns d. -/
def ConstantBackoff (d : Int) : BackoffFn := fun _ => d

/-- recurrenceOptions of options.go. -/
structure recurrenceOptions where
  recur : Bool
  period : Int

/-- constraintOptions of options.go. -/
structure constraintOptions where
  timeout : Int
  runLimit : Nat

/-- restartOptions of options.go; a Go nil backoff is none. -/
structure restartOptions where
  restartOnError : Bool
  restartLimit : Nat
  resetOnSuccess : Bool
  backoff : Option BackoffFn

/-- panicOptions of options.go. -/
structure panicOptions where
  calm : Bool

/-- options of options.go. -/
structure options where
  errChanSize : Nat
  recurring : recurrenceOptions
  constrained : constraintOptions
  restartable : restartOptions
  recoverable : panicOptions

/-- Zero value of the options struct, as allocated by New. -/
def defaultOptions : options :=
  { errChanSize := 0
    recurring := { recur := false, period := 0 }
    constrained := { timeout := 0, runLimit := 0 }
    restartable := { restartOnError := false, restartLimit := 0,
                     resetOnSuccess := false, backoff := none }
    recoverable := { calm := false } }

/-- The option constructors of options.go, as data: applying one is a
transformation of the options value. -/
inductive OptionV where
  | withChanBuffer (sz : Nat)
  | recur (b : Bool)
  | period (p : Int)
  | timeout (t : Int)
  | runLimit (l : Nat)
  | restart (b : Bool)
  | restartLimit (l : Nat) (backoffFn : Option BackoffFn)
  | resetOnSuccess (b : Bool)
  | recover (b : Bool)

/-- Effect of each option function of options.go on an options value.
RestartLimit substitutes ConstantBackoff 0 for a nil backoff argument. -/
def applyOption : OptionV → options → options
  | .withChanBuffer sz, o => { o with errChanSize := sz }
  | .recur b, o => { o with recurring := { o.recurring with recur := b } }
  | .period p, o => { o with recurring := { o.recurring with period := p } }
  | .timeout t, o => { o with constrained := { o.constrained with timeout := t } }
  | .runLimit l, o => { o with constrained := { o.constrained with runLimit := l } }
  | .restart b, o =>
      { o with restartable := { o.restartable with restartOnError := b } }
  | .restartLimit l bf, o =>
      let boff := match bf with
        | some f => f
        | none => ConstantBackoff 0
      { o with restartable :=
          { o.restartable with restartLimit := l, backoff := some boff } }
  | .resetOnSuccess b, o =>
      { o with restartable := { o.restartable with resetOnSuccess := b } }
  | .recover b, o =>
      { o with recoverable := { calm := b } }

/-- New of runnable.go: fold the option list over the zero options value,
in order, so that later options override earlier ones. -/
def applyOptions (l : List OptionV) : options :=
  l.foldl (fun o opt => applyOption opt o) defaultOptions

/-- Mutable counters of an Instance: runs (successful executions) and
failedRuns (consecutive failed executions). -/
structure InstState where
  runs : Nat
  failedRuns : Nat
deriving DecidableEq

/-- Instance.rerun of instance.go.  Takes the previous execution's
error; returns the updated counters and, when the decision completes
normally, the rerun flag together with the delay before the next run.
The second component is none exactly when the Go code faults by calling
a nil backoff function (restart due, backoff unset). -/
def rerunF (opts : Option options) (s : InstState) (err : Option GoError) :
    InstState × Option (Bool × Int) :=
  match opts with
  | none => (s, some (false, 0))
  | some o =>
    match err with
    | none =>
      let s1 : InstState :=
        { runs := s.runs + 1
          failedRuns := if o.restartable.restartOnError then 0 else s.failedRuns }
      let ra : Bool × Int :=
        if o.recurring.recur then (true, o.recurring.period) else (false, 0)
      if o.constrained.runLimit ≠ 0 ∧ o.constrained.runLimit ≤ s1.runs then
        (s1, some (false, 0))
      else
        (s1, some ra)
    | some _ =>
      let s1 : InstState := { runs := s.runs, failedRuns := s.failedRuns + 1 }
      if o.restartable.restartOnError then
        if o.restartable.restartLimit = 0 ∨
            s1.failedRuns < o.restartable.restartLimit then
          match o.restartable.backoff with
          | some b => (s1, some (true, b s1.failedRuns))
          | none => (s1, none)
        else
          (s1, some (false, 0))
      else
        (s1, some (false, 0))

/-- How the supervised loop of Instance.runCh ended.  The outcome
channel is closed in every case (the close is deferred first). -/
inductive TermKind where
  | completed
  | cancelled
  | contained
  | crashed
deriving DecidableEq

/-- Result of a full run of the supervised loop: the errors emitted on
the outcome channel in order, the number of executions of the runnable,
the final counters, and how the loop ended. -/
structure RunResult where
  emitted : List GoError
  execs : Nat
  final : InstState
  kind : TermKind
deriving DecidableEq

/-- Instance.runCh of instance.go, from an arbitrary loop state.
cancelAt is the oracle resolving the select race of the wait step: the
iteration index at which the parent-cancellation case wins (none =
never); pErr is the parent context's error (ctx.Err()); exec gives the
observable behaviour of the idx-th invocation of the runnable; idx
counts executions so far; fuel bounds the recursion (none = fuel ran
out before the loop ended).  A fault inside the rerun decision (nil
backoff) panics: it is recovered when the calm option is set, emitting
a RunnablePanic wrapping the runtime error, and crashes otherwise. -/
def runChAux (o : options) (cancelAt : Option Nat) (pErr : Option GoError)
    (exec : Nat → ExecResult) :
    InstState → Nat → Nat → Option RunResult
  | _, _, 0 => none
  | s, idx, fuel + 1 =>
    if cancelAt = some idx then
      some ⟨pErr.toList, idx, s, .cancelled⟩
    else
      match exec idx with
      | .panicked v =>
        if o.recoverable.calm then
          some ⟨[.runnablePanic v], idx + 1, s, .contained⟩
        else
          some ⟨[], idx + 1, s, .crashed⟩
      | .ok =>
        match rerunF (some o) s none with
        | (s1, some (true, _)) => runChAux o cancelAt pErr exec s1 (idx + 1) fuel
        | (s1, some (false, _)) => some ⟨[], idx + 1, s1, .completed⟩
        | (s1, none) =>
          if o.recoverable.calm then
            some ⟨[.runnablePanic nilFuncPanicValue], idx + 1, s1, .contained⟩
          else
            some ⟨[], idx + 1, s1, .crashed⟩
      | .fail e =>
        match rerunF (some o) s (some e) with
        | (s1, some (true, _)) =>
          (runChAux o cancelAt pErr exec s1 (idx + 1) fuel).map
            (fun r => { r with emitted := e :: r.emitted })
        | (s1, some (false, _)) => some ⟨[e], idx + 1, s1, .completed⟩
        | (s1, none) =>
          if o.recoverable.calm then
            some ⟨[e, .runnablePanic nilFuncPanicValue], idx + 1, s1, .contained⟩
          else
            some ⟨[e], idx + 1, s1, .crashed⟩

/-- The supervised loop started from a fresh Instance (both counters
zero, no delay before the first execution). -/
def runCh (o : options) (cancelAt : Option Nat) (pErr : Option GoError)
    (exec : Nat → ExecResult) (fuel : Nat) : Option RunResult :=
  runChAux o cancelAt pErr exec ⟨0, 0⟩ 0 fuel

/-- Runnable.run of runnable.go: a nil runnable panics with the
NilRunnable sentinel; otherwise the runnable's own behaviour is
observed.  The argument type stands for whatever the runnable is
invoked with (an invocation index for the loop, a context value for the
timeout model). -/
def runnableRun {α : Type} : Option (α → ExecResult) → α → ExecResult
  | none, _ => .panicked NilRunnable
  | some f, a => f a

/-- Observable effect of one call to Instance.Run / Instance.run:
whether a (non-nil) channel was returned and with which capacity, and
whether the background loop goroutine was launched.  The sync.Once
guard is modelled by the started flag, returned updated. -/
structure RunCallResult where
  chanReturned : Bool
  chanSize : Nat
  loopLaunched : Bool
deriving DecidableEq

/-- Instance.run of instance.go: under the once guard, the first call
allocates the channel (capacity errChanSize, 0 when opts is nil) and
launches runCh; later calls do nothing and return the nil channel. -/
def runStart (opts : Option options) (started : Bool) :
    RunCallResult × Bool :=
  if started then
    (⟨false, 0, false⟩, true)
  else
    (⟨true, (match opts with | some o => o.errChanSize | none => 0), true⟩, true)

/-- Parent or derived context, reduced to the one capability the claims
mention: an optional absolute deadline. -/
structure GoCtx where
  deadline : Option Int
deriving DecidableEq

/-- Effective deadline of context.WithTimeout: the new deadline, capped
by the parent's when the parent's is earlier. -/
def minDeadline : Option Int → Int → Int
  | none, d => d
  | some p, d => min p d

/-- Instance.withContextTimeout of instance.go: WithTimeout (adding
deadline now + timeout) when opts is non-nil and timeout is non-zero,
plain WithCancel (inheriting the parent's deadline) otherwise. -/
def withContextTimeout (opts : Option options) (parent : GoCtx) (now : Int) :
    GoCtx :=
  match opts with
  | some o =>
    if o.constrained.timeout ≠ 0 then
      { deadline := some (minDeadline parent.deadline (now + o.constrained.timeout)) }
    else
      { deadline := parent.deadline }
  | none => { deadline := parent.deadline }

/-- One execution step of the loop body of Instance.runCh: derive the
child context, invoke the runnable with it, and (by the deferred call)
invoke the child's cancellation function unconditionally on return. -/
structure ExecStep where
  child : GoCtx
  result : ExecResult
  cancelInvoked : Bool
deriving DecidableEq

/-- The anonymous function in Instance.runCh wrapping one execution. -/
def execWithContext (opts : Option options) (parent : GoCtx) (now : Int)
    (r : Option (GoCtx → ExecResult)) : ExecStep :=
  let ctxt := withContextTimeout opts parent now
  { child := ctxt, result := runnableRun r ctxt, cancelInvoked := true }

/-- An options value differing only in the resetOnSuccess field. -/
def setResetOnSuccess (o : options) (b : Bool) : options :=
  { o with restartable := { o.restartable with resetOnSuccess := b } }

/-- The rerun decision on success, characterized as one equation. -/
lemma rerunF_success (o : options) (s : InstState) :
    rerunF (some o) s none =
      (⟨s.runs + 1, if o.restartable.restartOnError then 0 else s.failedRuns⟩,
        some (if o.constrained.runLimit ≠ 0 ∧ o.constrained.runLimit ≤ s.runs + 1
          then (false, 0)
          else if o.recurring.recur then (true, o.recurring.period)
          else (false, 0))) := by
  simp only [rerunF]
  split_ifs <;> rfl

/-- The rerun decision on failure, characterized as one equation. -/
lemma rerunF_failure (o : options) (s : InstState) (e : GoError) :
    rerunF (some o) s (some e) =
      (⟨s.runs, s.failedRuns + 1⟩,
        if o.restartable.restartOnError then
          if o.restartable.restartLimit = 0 ∨
              s.failedRuns + 1 < o.restartable.restartLimit then
            match o.restartable.backoff with
            | some b => some (true, b (s.failedRuns + 1))
            | none => none
          else some (false, 0)
        else some (false, 0)) := by
  simp only [rerunF]
  split_ifs <;> first
    | rfl
    | cases o.restartable.backoff <;> rfl

/-- The rerun decision never reads resetOnSuccess. -/
lemma rerunF_setResetOnSuccess (o : options) (b : Bool) (s : InstState)
    (err : Option GoError) :
    rerunF (some (setResetOnSuccess o b)) s err = rerunF (some o) s err := by
  cases err <;> simp [rerunF, setResetOnSuccess]

/-- The supervised loop never reads resetOnSuccess. -/
lemma runChAux_setResetOnSuccess (o : options) (b : Bool)
    (cancelAt : Option Nat) (pErr : Option GoError) (exec : Nat → ExecResult) :
    ∀ (fuel : Nat) (s : InstState) (idx : Nat),
      runChAux (setResetOnSuccess o b) cancelAt pErr exec s idx fuel =
        runChAux o cancelAt pErr exec s idx fuel := by
  intro fuel
  induction fuel with
  | zero => intro s idx; rfl
  | succ n ih =>
    intro s idx
    have hcalm : (setResetOnSuccess o b).recoverable = o.recoverable := rfl
    simp only [runChAux, rerunF_setResetOnSuccess, ih, hcalm]

/-- Under recurrence with a positive run limit and an always-succeeding
runnable, the loop performs the remaining k successes, emits nothing,
and ends normally when the limit is reached. -/
lemma runChAux_recur_all_ok (o : options) (pErr : Option GoError)
    (exec : Nat → ExecResult)
    (hrec : o.recurring.recur = true) (hok : ∀ j, exec j = .ok) :
    ∀ (k : Nat) (s : InstState) (idx fuel : Nat), 0 < k →
      s.runs + k = o.constrained.runLimit → k ≤ fuel →
      runChAux o none pErr exec s idx fuel =
        some ⟨[], idx + k,
          ⟨o.constrained.runLimit,
            if o.restartable.restartOnError then 0 else s.failedRuns⟩,
          .completed⟩ := by
  intro k
  induction k with
  | zero => intro s idx fuel hk; exact absurd hk (by omega)
  | succ k ih =>
    intro s idx fuel _ hsum hfuel
    obtain ⟨f, rfl⟩ : ∃ f, fuel = f + 1 := ⟨fuel - 1, by omega⟩
    rcases Nat.eq_zero_or_pos k with hk | hk
    · subst hk
      have hstop : o.constrained.runLimit ≠ 0 ∧
          o.constrained.runLimit ≤ s.runs + 1 := by omega
      have hruns : s.runs + 1 = o.constrained.runLimit := by omega
      simp [runChAux, hok, rerunF_success, hstop, hruns]
    · have hcont : ¬(o.constrained.runLimit ≠ 0 ∧
          o.constrained.runLimit ≤ s.runs + 1) := by omega
      have hidx : idx + 1 + k = idx + (k + 1) := by omega
      by_cases hflag : o.restartable.restartOnError = true
      · have ihres := ih ⟨s.runs + 1, 0⟩ (idx + 1) f hk
          (show s.runs + 1 + k = o.constrained.runLimit by omega) (by omega)
        simp [runChAux, hok, rerunF_success, hcont, hrec, hflag, hidx, ihres]
      · have ihres := ih ⟨s.runs + 1, s.failedRuns⟩ (idx + 1) f hk
          (show s.runs + 1 + k = o.constrained.runLimit by omega) (by omega)
        simp [runChAux, hok, rerunF_success, hcont, hrec, hflag, hidx, ihres]

/-- Under restart-on-failure with a set backoff, a positive restart
limit, and an always-failing runnable, the loop performs the remaining
k failing executions, emits their errors in order, and ends normally
when the limit is reached. -/
lemma runChAux_restart_all_fail (o : options) (pErr : Option GoError)
    (es : Nat → GoError) (b : BackoffFn)
    (hre : o.restartable.restartOnError = true)
    (hb : o.restartable.backoff = some b) :
    ∀ (k : Nat) (s : InstState) (idx fuel : Nat), 0 < k →
      s.failedRuns + k = o.restartable.restartLimit → k ≤ fuel →
      runChAux o none pErr (fun j => .fail (es j)) s idx fuel =
        some ⟨(List.range k).map (fun j => es (idx + j)), idx + k,
          ⟨s.runs, o.restartable.restartLimit⟩, .completed⟩ := by
  intro k
  induction k with
  | zero => intro s idx fuel hk; exact absurd hk (by omega)
  | succ k ih =>
    intro s idx fuel _ hsum hfuel
    obtain ⟨f, rfl⟩ : ∃ f, fuel = f + 1 := ⟨fuel - 1, by omega⟩
    rcases Nat.eq_zero_or_pos k with hk | hk
    · subst hk
      have hne : ¬(o.restartable.restartLimit = 0) := by omega
      have hlt : ¬(s.failedRuns + 1 < o.restartable.restartLimit) := by omega
      have hfr : s.failedRuns + 1 = o.restartable.restartLimit := by omega
      simp [runChAux, rerunF_failure, hre, hne, hlt, hfr, List.range_succ]
    · have hcont : o.restartable.restartLimit = 0 ∨
          s.failedRuns + 1 < o.restartable.restartLimit := by omega
      have ihres := ih ⟨s.runs, s.failedRuns + 1⟩ (idx + 1) f hk
        (show s.failedRuns + 1 + k = o.restartable.restartLimit by omega) (by omega)
      have hidx : idx + 1 + k = idx + (k + 1) := by omega
      have hlist : es idx :: (List.range k).map (fun j => es (idx + 1 + j)) =
          (List.range (k + 1)).map (fun j => es (idx + j)) := by
        simp only [List.range_succ_eq_map, List.map_cons, List.map_map,
          Nat.add_zero]
        exact congrArg (List.cons (es idx)) (List.map_congr_left (fun a _ => by
          simp only [Function.comp_apply]
          congr 1
          omega))
      simp [runChAux, rerunF_failure, hre, hcont, hb, ihres, hidx, hlist]

/-- Each option function preserves the options invariant that a
non-zero restart limit comes with a set backoff function (RestartLimit
sets both, and nothing unsets the backoff). -/
lemma applyOption_backoff_isSome (opt : OptionV) (o : options)
    (h : o.restartable.restartLimit ≠ 0 → (o.restartable.backoff).isSome) :
    (applyOption opt o).restartable.restartLimit ≠ 0 →
      ((applyOption opt o).restartable.backoff).isSome := by
  cases opt <;> simp [applyOption] <;> try exact h

/-- The invariant of applyOption_backoff_isSome, threaded through a
fold of option functions. -/
lemma foldl_backoff_isSome :
    ∀ (l : List OptionV) (o : options),
      (o.restartable.restartLimit ≠ 0 → (o.restartable.backoff).isSome) →
      ((l.foldl (fun acc opt => applyOption opt acc) o).restartable.restartLimit ≠ 0 →
        ((l.foldl (fun acc opt => applyOption opt acc) o).restartable.backoff).isSome)
  | [], _, h => h
  | opt :: rest, o, h =>
      foldl_backoff_isSome rest (applyOption opt o)
        (applyOption_backoff_isSome opt o h)

/-- Every configuration built through New and the option functions has
a set backoff whenever its restart limit is non-zero. -/
lemma applyOptions_backoff_isSome (l : List OptionV)
    (h : (applyOptions l).restartable.restartLimit ≠ 0) :
    ∃ b, (applyOptions l).restartable.backoff = some b :=
  Option.isSome_iff_exists.mp
    (foldl_backoff_isSome l defaultOptions (by simp [defaultOptions]) h)

/-- C1: the claim says a nil/absent backoff behaves as a constant
zero-delay function and the rerun decision never faults; the code
disagrees: with restart-on-failure enabled and backoff unset (options
built from Restart true alone), the rerun decision after a failed
execution calls the nil backoff function and faults (delay component
none), and the supervised loop crashes after one execution instead of
scheduling an immediate rerun. -/
theorem nil_backoff_rerun_faults :
    rerunF (some (applyOptions [OptionV.restart true])) ⟨0, 0⟩
        (some (GoError.mk "boom")) = (⟨0, 1⟩, none) ∧
    runCh (applyOptions [OptionV.restart true]) none none
        (fun _ => .fail (.mk "boom")) 2 =
      some ⟨[.mk "boom"], 1, ⟨0, 1⟩, .crashed⟩ := by
  constructor <;> decide

/-- C2: on a successful execution, if restart-on-failure is enabled the
rerun decision resets the consecutive-failure counter to zero, for
every configuration and state, hence independently of resetOnSuccess
(which is quantified over through o). -/
theorem success_resets_failure_count (o : options) (s : InstState)
    (h : o.restartable.restartOnError = true) :
    (rerunF (some o) s none).1.failedRuns = 0 := by
  simp [rerunF_success, h]

theorem success_resets_failure_count_witness :
    (applyOptions [OptionV.restart true,
        OptionV.resetOnSuccess false]).restartable.restartOnError = true ∧
    (rerunF (some (applyOptions [OptionV.restart true,
        OptionV.resetOnSuccess false])) ⟨3, 5⟩ none).1.failedRuns = 0 :=
  ⟨by decide,
   success_resets_failure_count
     (applyOptions [OptionV.restart true, OptionV.resetOnSuccess false])
     ⟨3, 5⟩ (by decide)⟩

/-- C3: with recurrence enabled, run limit N greater than zero, and an
always-succeeding runnable, the engine performs exactly N executions,
emits no errors, and the loop ends normally (closing the stream). -/
theorem recurrence_run_limit_exact (o : options) (pErr : Option GoError)
    (exec : Nat → ExecResult) (N fuel : Nat)
    (hrec : o.recurring.recur = true) (hN : o.constrained.runLimit = N)
    (hpos : 0 < N) (hfuel : N ≤ fuel) (hok : ∀ j, exec j = .ok) :
    runCh o none pErr exec fuel = some ⟨[], N, ⟨N, 0⟩, .completed⟩ := by
  have h := runChAux_recur_all_ok o pErr exec hrec hok N ⟨0, 0⟩ 0 fuel hpos
    (by simp [hN]) hfuel
  simpa [runCh, hN] using h

theorem recurrence_run_limit_exact_witness :
    runCh (applyOptions [OptionV.recur true, OptionV.runLimit 2]) none none
        (fun _ => .ok) 2 = some ⟨[], 2, ⟨2, 0⟩, .completed⟩ :=
  recurrence_run_limit_exact (applyOptions [OptionV.recur true, OptionV.runLimit 2])
    none (fun _ => .ok) 2 2 (by decide) (by decide) (by decide) (by decide)
    (fun _ => rfl)

/-- C4: with restart-on-failure enabled, restart limit N greater than
zero, and an always-failing runnable, the engine (under any
configuration built through the option functions) performs exactly N
executions, emits exactly the N errors in generation order, and the
loop ends normally (closing the stream). -/
theorem restart_limit_exact (l : List OptionV) (es : Nat → GoError)
    (pErr : Option GoError) (N fuel : Nat)
    (hre : (applyOptions l).restartable.restartOnError = true)
    (hN : (applyOptions l).restartable.restartLimit = N)
    (hpos : 0 < N) (hfuel : N ≤ fuel) :
    runCh (applyOptions l) none pErr (fun j => .fail (es j)) fuel =
      some ⟨(List.range N).map es, N, ⟨0, N⟩, .completed⟩ := by
  obtain ⟨b, hb⟩ := applyOptions_backoff_isSome l (by omega)
  have h := runChAux_restart_all_fail (applyOptions l) pErr es b hre hb N
    ⟨0, 0⟩ 0 fuel hpos (by simp [hN]) hfuel
  simpa [runCh, hN] using h

theorem restart_limit_exact_witness :
    runCh (applyOptions [OptionV.restart true, OptionV.restartLimit 2 none])
        none none (fun j => .fail ((fun _ => GoError.mk "boom") j)) 2 =
      some ⟨[.mk "boom", .mk "boom"], 2, ⟨0, 2⟩, .completed⟩ :=
  (restart_limit_exact [OptionV.restart true, OptionV.restartLimit 2 none]
    (fun _ => GoError.mk "boom") none 2 2 (by decide) (by decide) (by decide)
    (by decide)).trans (by decide)

/-- C5: at any iteration of the running loop, when the parent
cancellation wins the inter-iteration wait, the loop emits the parent
context error exactly once (nothing when it is nil), terminates, and
performs no further execution of the runnable (the execution count
stays at the iteration index). -/
theorem parent_cancel_emits_once (o : options) (pErr : Option GoError)
    (exec : Nat → ExecResult) (s : InstState) (idx fuel : Nat) :
    runChAux o (some idx) pErr exec s idx (fuel + 1) =
      some ⟨pErr.toList, idx, s, .cancelled⟩ := by
  simp [runChAux]

/-- C6: with panic containment enabled, a runnable panicking with value
v yields exactly one error on the stream, a RunnablePanic whose text is
"runnable panic: v", and the loop terminates at once regardless of any
recurrence or restart settings carried by o. -/
theorem contained_panic_stops_loop (o : options) (pErr : Option GoError)
    (exec : Nat → ExecResult) (v : String) (fuel : Nat)
    (hcalm : o.recoverable.calm = true) (hexec : exec 0 = .panicked v) :
    runCh o none pErr exec (fuel + 1) =
      some ⟨[.runnablePanic v], 1, ⟨0, 0⟩, .contained⟩ ∧
    (GoError.runnablePanic v).errorText = "runnable panic: " ++ v := by
  refine ⟨?_, rfl⟩
  simp [runCh, runChAux, hexec, hcalm]

theorem contained_panic_stops_loop_witness :
    runCh (applyOptions [OptionV.recover true, OptionV.recur true]) none none
        (fun _ => .panicked "boom") 1 =
      some ⟨[.runnablePanic "boom"], 1, ⟨0, 0⟩, .contained⟩ ∧
    (GoError.runnablePanic "boom").errorText = "runnable panic: boom" :=
  contained_panic_stops_loop
    (applyOptions [OptionV.recover true, OptionV.recur true]) none
    (fun _ => .panicked "boom") "boom" 0 (by decide) rfl

/-- C7: the first start call on an instance returns the outcome channel
and launches the background loop; every call once the guard is set
returns the nil channel and launches nothing, so no additional
execution of the runnable occurs. -/
theorem run_start_idempotent (opts : Option options) :
    (runStart opts false).1.chanReturned = true ∧
    (runStart opts false).1.loopLaunched = true ∧
    (runStart opts false).2 = true ∧
    runStart opts (runStart opts false).2 = (⟨false, 0, false⟩, true) ∧
    runStart opts true = (⟨false, 0, false⟩, true) := by
  simp [runStart]

/-- C8 counterexample: the claim says the nil-runnable programming
error is never surfaced through the outcome stream, for every
configuration; but with panic containment enabled the engine recovers
the sentinel panic and emits it on the stream as a RunnablePanic whose
text wraps the sentinel. -/
theorem nil_runnable_surfaced_on_stream :
    runCh (applyOptions [OptionV.recover true]) none none
        (runnableRun none) 1 =
      some ⟨[.runnablePanic NilRunnable], 1, ⟨0, 0⟩, .contained⟩ ∧
    (GoError.runnablePanic NilRunnable).errorText =
      "runnable panic: attempted to run a nil Runnable" := by
  constructor <;> decide

/-- C8 amended: invoking a nil runnable always fails immediately by
panicking with the fixed NilRunnable sentinel (distinguishable from an
ordinary returned error); with containment disabled (the default) the
panic propagates uncontained and nothing reaches the outcome stream,
while with containment enabled it is recovered and surfaced as a
RunnablePanic on the stream. -/
theorem nil_runnable_panics_sentinel (o : options) (pErr : Option GoError)
    (fuel : Nat) :
    (∀ idx : Nat, runnableRun (none : Option (Nat → ExecResult)) idx =
      .panicked NilRunnable) ∧
    (o.recoverable.calm = false →
      runCh o none pErr (runnableRun none) (fuel + 1) =
        some ⟨[], 1, ⟨0, 0⟩, .crashed⟩) ∧
    (o.recoverable.calm = true →
      runCh o none pErr (runnableRun none) (fuel + 1) =
        some ⟨[.runnablePanic NilRunnable], 1, ⟨0, 0⟩, .contained⟩) := by
  refine ⟨fun _ => rfl, fun h => ?_, fun h => ?_⟩ <;>
    simp [runCh, runChAux, runnableRun, h]

theorem nil_runnable_panics_sentinel_witness :
    runnableRun (none : Option (Nat → ExecResult)) 0 =
      .panicked NilRunnable ∧
    runCh defaultOptions none none (runnableRun none) 1 =
      some ⟨[], 1, ⟨0, 0⟩, .crashed⟩ ∧
    runCh (applyOptions [OptionV.recover true]) none none
        (runnableRun none) 1 =
      some ⟨[.runnablePanic NilRunnable], 1, ⟨0, 0⟩, .contained⟩ :=
  ⟨(nil_runnable_panics_sentinel defaultOptions none 0).1 0,
   (nil_runnable_panics_sentinel defaultOptions none 0).2.1 rfl,
   (nil_runnable_panics_sentinel (applyOptions [OptionV.recover true])
     none 0).2.2 (by decide)⟩

/-- C9 counterexample: the claim says the runnable context carries a
deadline of now + T if and only if T is positive; but the code tests
the timeout against zero only, so a configured negative timeout (here
T = -1, with a deadline-free parent, now = 0) also yields a deadline of
now + T even though T is not positive. -/
theorem negative_timeout_adds_deadline :
    (applyOptions [OptionV.timeout (-1)]).constrained.timeout = -1 ∧
    ¬ (0 < (-1 : Int)) ∧
    withContextTimeout (some (applyOptions [OptionV.timeout (-1)]))
        ⟨none⟩ 0 = ⟨some (0 + (-1))⟩ := by
  refine ⟨by decide, by decide, by decide⟩

/-- C9 amended: the child context handed to the runnable carries the
deadline now + T, capped by the parent deadline when that is earlier,
exactly when a non-zero timeout T is configured; with T = 0 no deadline
is added (the parent context is inherited); and the cancellation
function of the child is invoked unconditionally when the execution
returns, regardless of outcome. -/
theorem with_context_timeout_spec (o : options) (parent : GoCtx)
    (now : Int) (r : Option (GoCtx → ExecResult)) :
    (o.constrained.timeout ≠ 0 →
      withContextTimeout (some o) parent now =
        ⟨some (minDeadline parent.deadline (now + o.constrained.timeout))⟩) ∧
    (o.constrained.timeout = 0 →
      withContextTimeout (some o) parent now = parent) ∧
    (execWithContext (some o) parent now r).child =
      withContextTimeout (some o) parent now ∧
    (execWithContext (some o) parent now r).cancelInvoked = true := by
  refine ⟨fun h => ?_, fun h => ?_, rfl, rfl⟩ <;>
    simp [withContextTimeout, h]

theorem with_context_timeout_spec_witness :
    withContextTimeout (some (applyOptions [OptionV.timeout 5])) ⟨none⟩ 0 =
      ⟨some (minDeadline none (0 + 5))⟩ ∧
    withContextTimeout (some defaultOptions) ⟨some 7⟩ 3 = ⟨some 7⟩ ∧
    (execWithContext (some defaultOptions) ⟨some 7⟩ 3 none).cancelInvoked =
      true :=
  ⟨(with_context_timeout_spec (applyOptions [OptionV.timeout 5]) ⟨none⟩ 0
      none).1 (by decide),
   (with_context_timeout_spec defaultOptions ⟨some 7⟩ 3 none).2.1 rfl,
   (with_context_timeout_spec defaultOptions ⟨some 7⟩ 3 none).2.2.2⟩

/-- C10: two configurations differing only in the resetOnSuccess flag
produce identical engine behaviour: the same rerun decisions and delays
for every state and outcome, and the same emitted errors, execution
counts, final counters and termination for every run of the loop,
because the engine never reads resetOnSuccess. -/
theorem reset_on_success_never_read (o : options) (b : Bool) :
    (∀ (s : InstState) (err : Option GoError),
      rerunF (some (setResetOnSuccess o b)) s err = rerunF (some o) s err) ∧
    (∀ (cancelAt : Option Nat) (pErr : Option GoError)
        (exec : Nat → ExecResult) (s : InstState) (idx fuel : Nat),
      runChAux (setResetOnSuccess o b) cancelAt pErr exec s idx fuel =
        runChAux o cancelAt pErr exec s idx fuel) :=
  ⟨fun s err => rerunF_setResetOnSuccess o b s err,
   fun cancelAt pErr exec s idx fuel =>
     runChAux_setResetOnSuccess o b cancelAt pErr exec fuel s idx⟩

end RunPkg
